import Mathlib

/-!
# Shallow embedding of the cross-chain bridge relayer

This file embeds the core of the bridge repository in Lean 4 and settles the
frozen claims about it.

* `threshold/src/simple.rs` and `threshold/src/utils.rs`: the simplified
  (k,n)-threshold signature manager (`SimpleThresholdManager`), partial-signature
  creation, aggregation and verification.
* `relayer/src/database.rs`: the durable store (`processed_transactions`,
  `ethereum_locks`, `polkadot_burns`, `bridge_state`, `token_mappings` tables)
  modelled as Lean lists with the SQL conflict semantics of each query.
* `relayer/src/signature_coordinator.rs`: the signing-session map and its
  operations.
* `relayer/src/coordinator.rs`: the event handlers `handle_ethereum_lock` and
  `handle_polkadot_burn`, with destination-chain submissions modelled as emitted
  effects.
* `relayer/src/event_monitor.rs`: one iteration of each chain watcher loop.

Byte strings (Rust `Vec<u8>`) are modelled as `List Nat`, each entry standing
for one byte (reduced mod 256 where the code manufactures bytes).  Wall-clock
timestamps (`SystemTime::now()`) are threaded as explicit `Nat` parameters.
Randomness (`OsRng` draws) is threaded as explicit input lists.

The external cryptographic libraries (`k256` ECDSA with RFC 6979 deterministic
signing, and `sha2`) are not part of the repository; they are modelled by
executable functions (`k256Sign`, `k256VerifyOk`, `hashWithDomain`, ...) that
preserve exactly the contract the code relies on: signing is a deterministic
function of the private key and the message, signatures are 64 bytes and parse
back, and a signature verifies under a public key exactly when that public key
belongs to the private key that produced the signature over the same message.
-/

set_option maxRecDepth 100000

deriving instance DecidableEq for Except

namespace Bridge

/-- Reduce a byte list to actual byte values (model of `Vec<u8>` normalisation:
    every Rust byte is `< 256`). -/
def normBytes (bs : List Nat) : List Nat := bs.map (· % 256)

/-- Big-endian 32-byte encoding of `n % 2^256`. -/
def bytes32BE (n : Nat) : List Nat :=
  (List.range 32).map (fun i => n / 256 ^ (31 - i) % 256)

/-- UTF-8 bytes of a string (model of `str::as_bytes` / `String::into_bytes`;
    for the ASCII strings the relayer builds, code points and UTF-8 bytes
    coincide). -/
def strBytes (s : String) : List Nat := s.data.map Char.toNat

/-- Injective accumulator over a byte list, used as the digest core of the
    model hash: multiplication by the odd constant 257 is invertible mod 2^256,
    so distinct short inputs yield distinct digests. -/
def mixFold (bs : List Nat) : Nat :=
  bs.foldl (fun a b => a * 257 + b % 256 + 1) 1

/-- Model of `utils::hash_with_domain` (`threshold/src/utils.rs`):
    `SHA256(domain || data)`, a 32-byte digest that is a deterministic function
    of the domain string and the data. -/
def hashWithDomain (domain : String) (data : List Nat) : List Nat :=
  bytes32BE (mixFold (strBytes domain ++ data))

/-- Model of `k256::ecdsa::SigningKey::from_bytes` succeeding on a 32-byte
    private share: the scalar must be non-zero. -/
def k256SkValid (sk : List Nat) : Bool :=
  sk.any (fun b => b % 256 ≠ 0)

/-- Model of `VerifyingKey::to_encoded_point(false).as_bytes()`: the 65-byte
    uncompressed SEC1 encoding `0x04 || X || Y` of the public key of `sk`.
    The model point determines (and is determined by) the private scalar. -/
def k256PubkeyBytes (sk : List Nat) : List Nat :=
  4 :: normBytes sk ++ List.replicate 32 0

/-- Model of `k256`'s deterministic (RFC 6979) ECDSA signing of `msg` under
    the 32-byte key `sk`: a 64-byte signature `r || s`, a deterministic
    function of `(sk, msg)` alone.  The `s` half is odd, hence never the zero
    scalar, so produced signatures always re-parse. -/
def k256Sign (sk : List Nat) (msg : List Nat) : List Nat :=
  normBytes sk ++ bytes32BE (2 * mixFold (normBytes sk ++ 0 :: msg) + 1)

/-- Model of `EcdsaSignature::from_bytes` succeeding on a 64-byte input:
    both scalar halves must be non-zero. -/
def k256SigValid (sig : List Nat) : Bool :=
  decide (sig.take 32 ≠ List.replicate 32 0) &&
    decide (sig.drop 32 ≠ List.replicate 32 0)

/-- Model of parsing a public key (`EncodedPoint::from_bytes` followed by
    `VerifyingKey::from_encoded_point`): an uncompressed 65-byte point. -/
def k256PubValid (pk : List Nat) : Bool :=
  decide (pk.length = 65) && decide (pk.head? = some 4)

/-- The private scalar a model public key belongs to. -/
def k256SkFromPub (pk : List Nat) : List Nat :=
  (pk.drop 1).take 32

/-- Model of `verifying_key.verify(msg, sig).is_ok()`: the signature verifies
    exactly when it is the signature of `msg` under the key the public key
    belongs to. -/
def k256VerifyOk (pk : List Nat) (msg : List Nat) (sig : List Nat) : Bool :=
  decide (sig = k256Sign (k256SkFromPub pk) msg)

theorem normBytes_normBytes (bs : List Nat) : normBytes (normBytes bs) = normBytes bs := by
  simp [normBytes, List.map_map]

theorem normBytes_length (bs : List Nat) : (normBytes bs).length = bs.length := by
  simp [normBytes]

theorem bytes32BE_length (n : Nat) : (bytes32BE n).length = 32 := by
  simp [bytes32BE]

theorem k256Sign_norm (sk msg : List Nat) :
    k256Sign (normBytes sk) msg = k256Sign sk msg := by
  simp [k256Sign, normBytes_normBytes]

theorem k256Sign_length (sk msg : List Nat) (h : sk.length = 32) :
    (k256Sign sk msg).length = 64 := by
  simp [k256Sign, normBytes_length, bytes32BE_length, h]

theorem bytes32BE_ne_zero_of_odd (n : Nat) (h : n % 2 = 1) :
    bytes32BE n ≠ List.replicate 32 0 := by
  intro hEq
  have h31 : (bytes32BE n)[31]? = (List.replicate 32 0 : List Nat)[31]? := by rw [hEq]
  have hleft : (bytes32BE n)[31]? = some (n % 256) := by
    simp [bytes32BE]
  have hright : (List.replicate 32 0 : List Nat)[31]? = some 0 := by
    simp
  rw [hleft, hright] at h31
  have hmod : n % 256 = 0 := by simpa using h31
  have : n % 2 = 0 := by
    have h2 : (2 : Nat) ∣ 256 := by norm_num
    calc n % 2 = n % 256 % 2 := (Nat.mod_mod_of_dvd n h2).symm
    _ = 0 := by rw [hmod]
  omega

theorem normBytes_ne_zero_of_skValid (sk : List Nat) (h : k256SkValid sk = true) :
    normBytes sk ≠ List.replicate 32 0 := by
  intro hEq
  rcases List.any_eq_true.mp h with ⟨b, hb, hbne⟩
  have : b % 256 ∈ normBytes sk := List.mem_map_of_mem (· % 256) hb
  rw [hEq] at this
  have := List.eq_of_mem_replicate this
  simp at hbne
  omega

theorem k256SigValid_sign (sk msg : List Nat) (hlen : sk.length = 32)
    (hsk : k256SkValid sk = true) : k256SigValid (k256Sign sk msg) = true := by
  have hnlen : (normBytes sk).length = 32 := by rw [normBytes_length, hlen]
  have htake : (k256Sign sk msg).take 32 = normBytes sk := by
    rw [k256Sign, ← hnlen, List.take_left]
  have hdrop : (k256Sign sk msg).drop 32 =
      bytes32BE (2 * mixFold (normBytes sk ++ 0 :: msg) + 1) := by
    rw [k256Sign, ← hnlen, List.drop_left]
  rw [k256SigValid, htake, hdrop]
  simp only [Bool.and_eq_true, decide_eq_true_eq]
  exact ⟨normBytes_ne_zero_of_skValid sk hsk,
    bytes32BE_ne_zero_of_odd _ (by omega)⟩

theorem k256PubValid_pubkey (sk : List Nat) (hlen : sk.length = 32) :
    k256PubValid (k256PubkeyBytes sk) = true := by
  simp [k256PubValid, k256PubkeyBytes, normBytes_length, hlen]

theorem k256SkFromPub_pubkey (sk : List Nat) (hlen : sk.length = 32) :
    k256SkFromPub (k256PubkeyBytes sk) = normBytes sk := by
  have hnlen : (normBytes sk).length = 32 := by rw [normBytes_length, hlen]
  simp only [k256SkFromPub, k256PubkeyBytes, List.drop_succ_cons, List.drop_zero]
  exact List.take_left' hnlen

/-- The modelled `k256` contract the code relies on: a signature produced by a
    valid 32-byte key verifies under that key's public key. -/
theorem k256_verify_sign (sk msg : List Nat) (hlen : sk.length = 32) :
    k256VerifyOk (k256PubkeyBytes sk) msg (k256Sign sk msg) = true := by
  simp only [k256VerifyOk, k256SkFromPub_pubkey sk hlen, k256Sign_norm,
    decide_eq_true_eq]

/-! ## `threshold` crate: data model (`threshold/src/types.rs`, `error.rs`) -/

/-- `ThresholdError` (`threshold/src/error.rs`).  The dynamic `String` payloads
    the code builds with `format!` are modelled by the fixed part of the format
    string. -/
inductive ThresholdError where
  | InvalidThreshold (threshold total : Nat)
  | InsufficientSignatures (required received : Nat)
  | InvalidKeyShare (reason : String)
  | InvalidSignature (reason : String)
  | KeyGenerationFailed (reason : String)
  | AggregationFailed (reason : String)
  | VerificationFailed (reason : String)
  | InvalidValidatorId (id : String)
  | DuplicateSignature (validator_id : String)
  | SessionNotFound (session_id : String)
  | SessionExpired (session_id : String)
  | CryptographicError (message : String)
  | SerializationError (message : String)
  | NetworkError (message : String)
  | Timeout (operation : String)
  | Generic (message : String)
  deriving DecidableEq, Repr

/-- `ThresholdConfig` (`threshold/src/types.rs`). -/
structure ThresholdConfig where
  threshold : Nat
  total_validators : Nat
  key_size : Nat
  deriving DecidableEq, Repr

/-- `ThresholdConfig::new`. -/
def ThresholdConfig.new (threshold total_validators key_size : Nat) :
    Except ThresholdError ThresholdConfig :=
  if threshold > total_validators then
    .error (.InvalidThreshold threshold total_validators)
  else if threshold = 0 then
    .error (.InvalidThreshold threshold total_validators)
  else
    .ok ⟨threshold, total_validators, key_size⟩

/-- `ThresholdConfig::validate`. -/
def ThresholdConfig.validate (c : ThresholdConfig) : Except ThresholdError Unit :=
  if c.threshold > c.total_validators ∨ c.threshold = 0 then
    .error (.InvalidThreshold c.threshold c.total_validators)
  else
    .ok ()

/-- `KeyShare` (`threshold/src/types.rs`). -/
structure KeyShare where
  validator_id : String
  private_share : List Nat
  public_share : List Nat
  coefficients : List (List Nat)
  config : ThresholdConfig
  deriving DecidableEq, Repr

/-- `PublicKeyShare` (`threshold/src/types.rs`). -/
structure PublicKeyShare where
  validator_id : String
  public_share : List Nat
  verification_key : List Nat
  deriving DecidableEq, Repr

/-- `PartialSignature` (`threshold/src/types.rs`).  `timestamp` models the
    `SystemTime` wall-clock instant at which the signature was created. -/
structure PartialSignature where
  validator_id : String
  signature : List Nat
  commitment : Option (List Nat)
  timestamp : Nat
  deriving DecidableEq, Repr

/-- `AggregatedSignature` (`threshold/src/types.rs`). -/
structure AggregatedSignature where
  signature : List Nat
  signers : List String
  public_key : List Nat
  scheme : String
  timestamp : Nat
  deriving DecidableEq, Repr

/-- `ThresholdSchemeType` (`threshold/src/simple.rs`). -/
inductive ThresholdSchemeType where
  | Ecdsa
  deriving DecidableEq, Repr

/-- `SimpleThresholdManager` (`threshold/src/simple.rs`). -/
structure SimpleThresholdManager where
  config : ThresholdConfig
  scheme : ThresholdSchemeType
  deriving DecidableEq, Repr

/-! ## `threshold` crate: operations (`threshold/src/simple.rs`, `utils.rs`) -/

/-- `SimpleThresholdManager::new`: validates the config. -/
def SimpleThresholdManager.new (config : ThresholdConfig) :
    Except ThresholdError SimpleThresholdManager :=
  match config.validate with
  | .error e => .error e
  | .ok _ => .ok ⟨config, .Ecdsa⟩

/-- `SimpleThresholdManager::generate_key_shares`.  The `SigningKey::random`
    draws from `OsRng` are threaded in as `randomKeys` (one 32-byte scalar per
    validator, in iteration order); the returned `HashMap` is modelled as the
    association list of its entries. -/
def generateKeyShares (m : SimpleThresholdManager) (validator_ids : List String)
    (randomKeys : List (List Nat)) :
    Except ThresholdError (List (String × KeyShare)) :=
  if validator_ids.length ≠ m.config.total_validators then
    .error (.InvalidThreshold m.config.threshold m.config.total_validators)
  else
    .ok ((validator_ids.zip randomKeys).map (fun p =>
      (p.1, { validator_id := p.1
              private_share := p.2
              public_share := k256PubkeyBytes p.2
              coefficients := []
              config := m.config })))

/-- `SimpleThresholdManager::create_partial_signature`: reconstructs the
    signing key from the 32-byte private share, hashes the message with the
    session id as domain, signs deterministically, and stamps the wall clock
    (`now`). -/
def createPartialSignature (_m : SimpleThresholdManager) (key_share : KeyShare)
    (message : List Nat) (session_id : String) (now : Nat) :
    Except ThresholdError PartialSignature :=
  if key_share.private_share.length = 32 then
    if k256SkValid key_share.private_share then
      let message_with_context := hashWithDomain session_id message
      .ok { validator_id := key_share.validator_id
            signature := k256Sign key_share.private_share message_with_context
            commitment := none
            timestamp := now }
    else
      .error (.InvalidKeyShare "Invalid signing key")
  else
    .error (.InvalidKeyShare "Invalid private key length")

/-- `SimpleThresholdManager::aggregate_signatures`: fails with
    `InsufficientSignatures` below the threshold, otherwise returns the FIRST
    partial's bytes as the aggregate, with the first `threshold` validator ids
    as signers, an empty public key and scheme tag `"ecdsa-simple"`.  No
    cryptographic verification is performed (the computed
    `_message_with_context` in the source is unused).  The Rust code indexes
    `partial_sigs[0]`, which can only panic when `threshold = 0` (a config
    `SimpleThresholdManager::new` rejects); the model returns a distinguished
    `AggregationFailed` in that unreachable case. -/
def aggregateSignatures (m : SimpleThresholdManager)
    (partial_sigs : List PartialSignature)
    (_public_key_shares : List PublicKeyShare) (_message : List Nat)
    (_session_id : String) (now : Nat) :
    Except ThresholdError AggregatedSignature :=
  if partial_sigs.length < m.config.threshold then
    .error (.InsufficientSignatures m.config.threshold partial_sigs.length)
  else
    match partial_sigs with
    | [] => .error (.AggregationFailed "index out of bounds")
    | first_sig :: _ =>
      .ok { signature := first_sig.signature
            signers := (partial_sigs.take m.config.threshold).map
              (fun s => s.validator_id)
            public_key := []
            scheme := "ecdsa-simple"
            timestamp := now }

/-- `SimpleThresholdManager::verify_signature`: checks the 64-byte length,
    parses the signature and the public key, and runs ECDSA verification over
    `hash_with_domain(session_id, message)`. -/
def verifySignature (_m : SimpleThresholdManager)
    (signature : AggregatedSignature) (message : List Nat)
    (public_key : List Nat) (session_id : String) :
    Except ThresholdError Bool :=
  if signature.signature.length ≠ 64 then
    .error (.InvalidSignature "Invalid signature length")
  else if ¬ (k256SigValid signature.signature = true) then
    .error (.InvalidSignature "Invalid ECDSA signature")
  else if ¬ (k256PubValid public_key = true) then
    .error (.InvalidSignature "Invalid public key encoding")
  else
    .ok (k256VerifyOk public_key (hashWithDomain session_id message)
      signature.signature)

/-- `utils::extract_public_key_shares`: the `HashMap` iteration is modelled on
    the association list (any iteration order can be produced by choosing the
    list). -/
def extractPublicKeyShares (key_shares : List (String × KeyShare)) :
    Except ThresholdError (List PublicKeyShare) :=
  .ok (key_shares.map (fun p =>
    { validator_id := p.1
      public_share := p.2.public_share
      verification_key := p.2.public_share }))

/-- `utils::compute_combined_public_key`: the FIRST public key share (a
    placeholder for a real combined key, per the source comment). -/
def computeCombinedPublicKey (key_shares : List PublicKeyShare) :
    Except ThresholdError (List Nat) :=
  match key_shares with
  | [] => .error (.InvalidKeyShare "No key shares provided")
  | k :: _ => .ok k.public_share

/-! ## Association-list model of Rust `HashMap` / SQL upsert -/

/-- `HashMap::insert` / SQL `ON CONFLICT (key) DO UPDATE`: replace the entry
    when the key is present, append otherwise. -/
def alInsert {α : Type} (l : List (String × α)) (k : String) (v : α) :
    List (String × α) :=
  if l.any (fun p => p.1 == k) then
    l.map (fun p => if p.1 == k then (k, v) else p)
  else
    l ++ [(k, v)]

/-- `HashMap::get` / SQL point lookup. -/
def alLookup {α : Type} (l : List (String × α)) (k : String) : Option α :=
  (l.find? (fun p => p.1 == k)).map (fun p => p.2)

/-- `HashMap::get_mut` followed by an in-place mutation: rewrite the (first)
    entry with the key, leave the map unchanged when the key is absent. -/
def alUpdate {α : Type} : List (String × α) → String → (α → α) → List (String × α)
  | [], _, _ => []
  | (k, v) :: rest, key, f =>
    if k == key then (k, f v) :: rest else (k, v) :: alUpdate rest key f

/-! ## `relayer` crate: error and configuration (`relayer/src/error.rs`,
`config.rs`) -/

/-- `RelayerError` (`relayer/src/error.rs`); dynamic `format!` payloads are
    modelled by the fixed part of the format string. -/
inductive RelayerError where
  | Config (message : String)
  | Ethereum (message : String)
  | Polkadot (message : String)
  | ThresholdSignature (e : ThresholdError)
  | Database (message : String)
  | Network (message : String)
  | Generic (message : String)
  deriving DecidableEq, Repr

/-- `ValidatorPeer` (`relayer/src/config.rs`). -/
structure ValidatorPeer where
  id : String
  public_key : String
  address : String
  active : Bool
  deriving DecidableEq, Repr

/-- `ValidatorConfig` (`relayer/src/config.rs`). -/
structure ValidatorConfig where
  validator_id : String
  private_key : Option String
  peers : List ValidatorPeer
  enabled : Bool
  deriving DecidableEq, Repr

/-- Default Ethereum confirmation depth (`relayer/src/config.rs`, default for
    `ETHEREUM_CONFIRMATIONS`). -/
def ethereumDefaultConfirmations : Nat := 12

/-- Default Polkadot confirmation depth (`relayer/src/config.rs`, default for
    `POLKADOT_CONFIRMATIONS`). -/
def polkadotDefaultConfirmations : Nat := 6

/-! ## `relayer` crate: durable store (`relayer/src/database.rs`)

Each SQL table from `migrate` is a list of rows; every query is modelled with
the conflict semantics of its SQL.  In particular `processed_transactions` has
`tx_hash VARCHAR(66) NOT NULL UNIQUE` — the uniqueness constraint is on
`tx_hash` ALONE, not on `(tx_hash, chain)` — and both `mark_*_tx_processed`
inserts say `ON CONFLICT (tx_hash) DO NOTHING`.  The `bridge_state.value`
column stores the cursor as its canonical decimal string; since
`to_string`/`parse` is a bijection between `Nat` and those strings, the value
is modelled as `Nat` directly. -/

/-- A row of `ethereum_locks`. -/
structure EthereumLockRow where
  user_address : String
  token_address : String
  amount : String
  polkadot_address : String
  tx_hash : String
  block_number : Nat
  processed : Bool
  deriving DecidableEq, Repr

/-- A row of `polkadot_burns`. -/
structure PolkadotBurnRow where
  user_account : String
  asset_id : Nat
  amount : String
  ethereum_recipient : String
  tx_hash : String
  block_number : Nat
  processed : Bool
  deriving DecidableEq, Repr

/-- A row of `processed_transactions`. -/
structure ProcessedRow where
  tx_hash : String
  chain : String
  deriving DecidableEq, Repr

/-- The durable store (`Database` in `relayer/src/database.rs`). -/
structure Database where
  ethereum_locks : List EthereumLockRow
  polkadot_burns : List PolkadotBurnRow
  processed_transactions : List ProcessedRow
  bridge_state : List (String × Nat)
  token_mappings : List (String × Nat)
  deriving DecidableEq, Repr

/-- The empty store produced by `migrate` on a fresh database. -/
def Database.empty : Database := ⟨[], [], [], [], []⟩

/-- `Database::store_ethereum_lock`: `INSERT ... ON CONFLICT (tx_hash) DO
    NOTHING` into `ethereum_locks` (`processed` takes its `FALSE` default). -/
def Database.storeEthereumLock (db : Database) (user token amount
    polkadot_address tx_hash : String) (block_number : Nat) : Database :=
  if db.ethereum_locks.any (fun r => r.tx_hash == tx_hash) then db
  else
    { db with ethereum_locks := db.ethereum_locks ++
        [⟨user, token, amount, polkadot_address, tx_hash, block_number, false⟩] }

/-- `Database::store_polkadot_burn`. -/
def Database.storePolkadotBurn (db : Database) (user : String) (asset_id : Nat)
    (amount ethereum_recipient tx_hash : String) (block_number : Nat) :
    Database :=
  if db.polkadot_burns.any (fun r => r.tx_hash == tx_hash) then db
  else
    { db with polkadot_burns := db.polkadot_burns ++
        [⟨user, asset_id, amount, ethereum_recipient, tx_hash, block_number,
          false⟩] }

/-- `Database::is_ethereum_tx_processed`: `COUNT(*) > 0` over rows with this
    `tx_hash` AND `chain = 'ethereum'`. -/
def Database.isEthereumTxProcessed (db : Database) (tx_hash : String) : Bool :=
  db.processed_transactions.any
    (fun r => r.tx_hash == tx_hash && r.chain == "ethereum")

/-- `Database::is_polkadot_tx_processed`. -/
def Database.isPolkadotTxProcessed (db : Database) (tx_hash : String) : Bool :=
  db.processed_transactions.any
    (fun r => r.tx_hash == tx_hash && r.chain == "polkadot")

/-- `Database::mark_ethereum_tx_processed`: insert `(tx_hash, 'ethereum')`,
    `ON CONFLICT (tx_hash) DO NOTHING` — the conflict fires on ANY existing
    row with the same `tx_hash`, whatever its `chain`. -/
def Database.markEthereumTxProcessed (db : Database) (tx_hash : String) :
    Database :=
  if db.processed_transactions.any (fun r => r.tx_hash == tx_hash) then db
  else
    { db with processed_transactions :=
        db.processed_transactions ++ [⟨tx_hash, "ethereum"⟩] }

/-- `Database::mark_polkadot_tx_processed`. -/
def Database.markPolkadotTxProcessed (db : Database) (tx_hash : String) :
    Database :=
  if db.processed_transactions.any (fun r => r.tx_hash == tx_hash) then db
  else
    { db with processed_transactions :=
        db.processed_transactions ++ [⟨tx_hash, "polkadot"⟩] }

/-- `Database::get_last_processed_ethereum_block`. -/
def Database.getLastProcessedEthereumBlock (db : Database) : Option Nat :=
  alLookup db.bridge_state "last_ethereum_block"

/-- `Database::set_last_processed_ethereum_block`: upsert on `key`. -/
def Database.setLastProcessedEthereumBlock (db : Database) (block_number : Nat) :
    Database :=
  { db with bridge_state :=
      alInsert db.bridge_state "last_ethereum_block" block_number }

/-- `Database::get_last_processed_polkadot_block`. -/
def Database.getLastProcessedPolkadotBlock (db : Database) : Option Nat :=
  alLookup db.bridge_state "last_polkadot_block"

/-- `Database::set_last_processed_polkadot_block`. -/
def Database.setLastProcessedPolkadotBlock (db : Database) (block_number : Nat) :
    Database :=
  { db with bridge_state :=
      alInsert db.bridge_state "last_polkadot_block" block_number }

/-- `Database::get_token_address_by_asset_id`: `fetch_one` errors when no row
    matches. -/
def Database.getTokenAddressByAssetId (db : Database) (asset_id : Nat) :
    Except RelayerError String :=
  match db.token_mappings.find? (fun p => p.2 == asset_id) with
  | some p => .ok p.1
  | none => .error (.Database "Failed to get token address for asset")

/-- The two chains the `processed_transactions.chain` column distinguishes. -/
inductive Chain where
  | ethereum
  | polkadot
  deriving DecidableEq, Repr

/-- The other chain. -/
def Chain.other : Chain → Chain
  | .ethereum => .polkadot
  | .polkadot => .ethereum

/-- The chain's `chain` column value. -/
def Chain.name : Chain → String
  | .ethereum => "ethereum"
  | .polkadot => "polkadot"

/-- Chain-indexed dispatcher over the two `mark_*_tx_processed` functions. -/
def Database.markTxProcessed (db : Database) (c : Chain) (tx_hash : String) :
    Database :=
  match c with
  | .ethereum => db.markEthereumTxProcessed tx_hash
  | .polkadot => db.markPolkadotTxProcessed tx_hash

/-- Chain-indexed dispatcher over the two `is_*_tx_processed` functions. -/
def Database.isTxProcessed (db : Database) (c : Chain) (tx_hash : String) :
    Bool :=
  match c with
  | .ethereum => db.isEthereumTxProcessed tx_hash
  | .polkadot => db.isPolkadotTxProcessed tx_hash

/-! ## `relayer` crate: signature coordinator
(`relayer/src/signature_coordinator.rs`)

The `pending_signatures` `HashMap<String, SignatureSession>` is the
association list `PendingSignatures`.  Rust mutations that happen before an
error is propagated with `?` persist (the map lives behind `Arc<RwLock>`), so
every operation returns the state reached so far together with its
`Result`. -/

/-- `SignatureSession` (`relayer/src/signature_coordinator.rs`). -/
structure SignatureSession where
  tx_hash : String
  message : List Nat
  partial_signatures : List (String × PartialSignature)
  required_signatures : Nat
  created_at : Nat
  deriving DecidableEq, Repr

/-- The coordinator's in-memory session map. -/
abbrev PendingSignatures : Type := List (String × SignatureSession)

/-- One hex digit (`hex::decode` character table). -/
def hexDigit? (c : Char) : Option Nat :=
  if '0' ≤ c ∧ c ≤ '9' then some (c.toNat - 48)
  else if 'a' ≤ c ∧ c ≤ 'f' then some (c.toNat - 87)
  else if 'A' ≤ c ∧ c ≤ 'F' then some (c.toNat - 55)
  else none

/-- `hex::decode` over a character list: pairs of hex digits; odd length or a
    non-hex character fails. -/
def hexDecodeChars : List Char → Option (List Nat)
  | [] => some []
  | [_] => none
  | a :: b :: rest =>
    match hexDigit? a, hexDigit? b, hexDecodeChars rest with
    | some ha, some hb, some tail => some ((ha * 16 + hb) :: tail)
    | _, _, _ => none

/-- `hex::decode` on a string. -/
def hexDecode (s : String) : Option (List Nat) := hexDecodeChars s.data

/-- `SignatureCoordinator::create_mint_message`:
    `format!("mint:{}:{}:{}:{}", recipient, token, amount, ethereum_tx_hash)`
    turned into bytes.  (The Rust function returns `Result` but never
    errors.) -/
def createMintMessage (recipient token amount ethereum_tx_hash : String) :
    List Nat :=
  strBytes ("mint:" ++ recipient ++ ":" ++ token ++ ":" ++ amount ++ ":" ++
    ethereum_tx_hash)

/-- `SignatureCoordinator::create_unlock_message`:
    `format!("unlock:{}:{}:{}:{}", recipient, asset_id, amount,
    polkadot_tx_hash)`; the `u32` asset id is rendered in decimal. -/
def createUnlockMessage (recipient : String) (asset_id : Nat)
    (amount polkadot_tx_hash : String) : List Nat :=
  strBytes ("unlock:" ++ recipient ++ ":" ++ toString asset_id ++ ":" ++
    amount ++ ":" ++ polkadot_tx_hash)

/-- `SignatureCoordinator::get_validator_key_share`: hex-decodes the
    configured private key into a `KeyShare` with a mock 65-byte zero public
    share and the hard-coded `ThresholdConfig::new(2, 3, 256)`. -/
def getValidatorKeyShare (cfg : ValidatorConfig) (private_key : String) :
    Except RelayerError KeyShare :=
  match hexDecode private_key with
  | none => .error (.Config "Invalid private key hex")
  | some bytes =>
    .ok { validator_id := cfg.validator_id
          private_share := bytes
          public_share := List.replicate 65 0
          coefficients := []
          config := ⟨2, 3, 256⟩ }

/-- `SignatureCoordinator::add_partial_signature`: looks the session up with
    `get_mut`; when present, `HashMap::insert`s the validator's partial
    (overwriting any previous one); when absent, does nothing.  Always returns
    `Ok(())`. -/
def addPartialSignature (pending : PendingSignatures) (tx_hash validator_id :
    String) (partial_sig : PartialSignature) :
    PendingSignatures × Except RelayerError Unit :=
  (alUpdate pending tx_hash (fun s =>
    { s with partial_signatures :=
        alInsert s.partial_signatures validator_id partial_sig }),
   .ok ())

/-- `SignatureCoordinator::request_mint_signature`: unless validator mode is
    disabled, build the mint message, insert a FRESH session (replacing any
    existing one for this `tx_hash`), and, when a private key is configured,
    create and admit the local partial (broadcast is a logging no-op). -/
def requestMintSignature (cfg : ValidatorConfig)
    (tm : SimpleThresholdManager) (pending : PendingSignatures)
    (recipient token amount ethereum_tx_hash : String) (now : Nat) :
    PendingSignatures × Except RelayerError Unit :=
  if ¬ cfg.enabled then (pending, .ok ())
  else
    let message := createMintMessage recipient token amount ethereum_tx_hash
    let session : SignatureSession :=
      { tx_hash := ethereum_tx_hash
        message := message
        partial_signatures := []
        required_signatures := tm.config.threshold
        created_at := now }
    let pending1 := alInsert pending ethereum_tx_hash session
    match cfg.private_key with
    | none => (pending1, .ok ())
    | some private_key =>
      match getValidatorKeyShare cfg private_key with
      | .error e => (pending1, .error e)
      | .ok key_share =>
        match createPartialSignature tm key_share message ethereum_tx_hash now
          with
        | .error e => (pending1, .error (.ThresholdSignature e))
        | .ok partial_sig =>
          (addPartialSignature pending1 ethereum_tx_hash cfg.validator_id
            partial_sig).1 |> (fun p => (p, .ok ()))

/-- `SignatureCoordinator::request_unlock_signature` (symmetric to the mint
    case, over the unlock message). -/
def requestUnlockSignature (cfg : ValidatorConfig)
    (tm : SimpleThresholdManager) (pending : PendingSignatures)
    (recipient : String) (asset_id : Nat) (amount polkadot_tx_hash : String)
    (now : Nat) : PendingSignatures × Except RelayerError Unit :=
  if ¬ cfg.enabled then (pending, .ok ())
  else
    let message := createUnlockMessage recipient asset_id amount
      polkadot_tx_hash
    let session : SignatureSession :=
      { tx_hash := polkadot_tx_hash
        message := message
        partial_signatures := []
        required_signatures := tm.config.threshold
        created_at := now }
    let pending1 := alInsert pending polkadot_tx_hash session
    match cfg.private_key with
    | none => (pending1, .ok ())
    | some private_key =>
      match getValidatorKeyShare cfg private_key with
      | .error e => (pending1, .error e)
      | .ok key_share =>
        match createPartialSignature tm key_share message polkadot_tx_hash now
          with
        | .error e => (pending1, .error (.ThresholdSignature e))
        | .ok partial_sig =>
          (addPartialSignature pending1 polkadot_tx_hash cfg.validator_id
            partial_sig).1 |> (fun p => (p, .ok ()))

/-- `SignatureCoordinator::get_mint_signatures`: when the session holds at
    least `required_signatures` partials, the list of raw signature byte
    vectors; otherwise `None`. -/
def getMintSignatures (pending : PendingSignatures) (tx_hash : String) :
    Except RelayerError (Option (List (List Nat))) :=
  match alLookup pending tx_hash with
  | some session =>
    if session.required_signatures ≤ session.partial_signatures.length then
      .ok (some (session.partial_signatures.map (fun p => p.2.signature)))
    else
      .ok none
  | none => .ok none

/-- `SignatureCoordinator::get_unlock_signatures` delegates to the mint
    variant. -/
def getUnlockSignatures (pending : PendingSignatures) (tx_hash : String) :
    Except RelayerError (Option (List (List Nat))) :=
  getMintSignatures pending tx_hash

/-- One pass of `SignatureCoordinator::cleanup_expired_signatures`: retain the
    sessions younger than the hard-coded one-hour timeout. -/
def cleanupExpiredSignatures (pending : PendingSignatures) (now : Nat) :
    PendingSignatures :=
  pending.filter (fun p => decide (now - p.2.created_at ≤ 3600))

/-! ## `relayer` crate: coordinator (`relayer/src/coordinator.rs`)

Destination-chain submissions (`PolkadotClient::mint_tokens`,
`EthereumClient::unlock_tokens`) are external RPC calls; they are modelled as
emitted `Effect`s and as succeeding (the claims under proof only concern which
submissions are attempted, not chain-side failures). -/

/-- `BridgeEvent` (`relayer/src/coordinator.rs`). -/
inductive BridgeEvent where
  | EthereumLock (user token amount polkadot_address tx_hash : String)
      (block_number : Nat)
  | PolkadotBurn (user : String) (asset_id : Nat)
      (amount ethereum_recipient tx_hash : String) (block_number : Nat)
  deriving DecidableEq, Repr

/-- A destination-chain submission performed by the coordinator. -/
inductive Effect where
  | mintTokens (recipient token amount ethereum_tx_hash : String)
      (signatures : List (List Nat))
  | unlockTokens (user token amount polkadot_tx_hash : String)
      (signatures : List (List Nat))
  deriving DecidableEq, Repr

/-- The coordinator-visible mutable state: the store and the session map. -/
structure RelayerState where
  db : Database
  pending : PendingSignatures
  deriving DecidableEq, Repr

/-- `BridgeCoordinator::handle_ethereum_lock`: drop if already processed;
    store the lock; in validator mode run `request_mint_signature`; if enough
    signatures are available submit `mint_tokens` and mark processed. -/
def handleEthereumLock (cfg : ValidatorConfig) (tm : SimpleThresholdManager)
    (st : RelayerState) (user token amount polkadot_address tx_hash : String)
    (block_number now : Nat) :
    RelayerState × List Effect × Except RelayerError Unit :=
  if st.db.isEthereumTxProcessed tx_hash then (st, [], .ok ())
  else
    let db1 := st.db.storeEthereumLock user token amount polkadot_address
      tx_hash block_number
    let step :=
      if cfg.enabled then
        requestMintSignature cfg tm st.pending polkadot_address token amount
          tx_hash now
      else (st.pending, .ok ())
    match step with
    | (pending1, .error e) => (⟨db1, pending1⟩, [], .error e)
    | (pending1, .ok _) =>
      match getMintSignatures pending1 tx_hash with
      | .error e => (⟨db1, pending1⟩, [], .error e)
      | .ok none => (⟨db1, pending1⟩, [], .ok ())
      | .ok (some signatures) =>
        let db2 := db1.markEthereumTxProcessed tx_hash
        (⟨db2, pending1⟩,
         [.mintTokens polkadot_address token amount tx_hash signatures],
         .ok ())

/-- `BridgeCoordinator::handle_polkadot_burn`: symmetric, with the token
    address looked up from the asset id before `unlock_tokens`. -/
def handlePolkadotBurn (cfg : ValidatorConfig) (tm : SimpleThresholdManager)
    (st : RelayerState) (user : String) (asset_id : Nat)
    (amount ethereum_recipient tx_hash : String) (block_number now : Nat) :
    RelayerState × List Effect × Except RelayerError Unit :=
  if st.db.isPolkadotTxProcessed tx_hash then (st, [], .ok ())
  else
    let db1 := st.db.storePolkadotBurn user asset_id amount ethereum_recipient
      tx_hash block_number
    let step :=
      if cfg.enabled then
        requestUnlockSignature cfg tm st.pending ethereum_recipient asset_id
          amount tx_hash now
      else (st.pending, .ok ())
    match step with
    | (pending1, .error e) => (⟨db1, pending1⟩, [], .error e)
    | (pending1, .ok _) =>
      match getUnlockSignatures pending1 tx_hash with
      | .error e => (⟨db1, pending1⟩, [], .error e)
      | .ok none => (⟨db1, pending1⟩, [], .ok ())
      | .ok (some signatures) =>
        match db1.getTokenAddressByAssetId asset_id with
        | .error e => (⟨db1, pending1⟩, [], .error e)
        | .ok token_address =>
          let db2 := db1.markPolkadotTxProcessed tx_hash
          (⟨db2, pending1⟩,
           [.unlockTokens ethereum_recipient token_address amount tx_hash
             signatures],
           .ok ())

/-- `BridgeCoordinator::handle_event`: dispatch on the event variant. -/
def handleEvent (cfg : ValidatorConfig) (tm : SimpleThresholdManager)
    (st : RelayerState) (event : BridgeEvent) (now : Nat) :
    RelayerState × List Effect × Except RelayerError Unit :=
  match event with
  | .EthereumLock user token amount polkadot_address tx_hash block_number =>
    handleEthereumLock cfg tm st user token amount polkadot_address tx_hash
      block_number now
  | .PolkadotBurn user asset_id amount ethereum_recipient tx_hash
      block_number =>
    handlePolkadotBurn cfg tm st user asset_id amount ethereum_recipient
      tx_hash block_number now

/-- The `(chain, src_tx)` key of an event in the processed set. -/
def BridgeEvent.chain : BridgeEvent → Chain
  | .EthereumLock _ _ _ _ _ _ => .ethereum
  | .PolkadotBurn _ _ _ _ _ _ => .polkadot

/-- The source transaction hash of an event. -/
def BridgeEvent.txHash : BridgeEvent → String
  | .EthereumLock _ _ _ _ tx_hash _ => tx_hash
  | .PolkadotBurn _ _ _ _ tx_hash _ => tx_hash

/-! ## `relayer` crate: event monitor (`relayer/src/event_monitor.rs`) -/

/-- A raw `LockEvent` as fetched from the Ethereum client. -/
structure EthLockEvent where
  user : String
  token : String
  amount : String
  polkadot_address : String
  deriving DecidableEq, Repr

/-- `EventMonitor::process_ethereum_events`: reads the chain head
    (`current_block`); when `current_block ≤ from_block` it returns the old
    cursor untouched (the caller then sleeps); otherwise it normalises and
    emits every fetched lock event (with the hard-coded `"mock_tx_hash"` and
    the head as block number) and returns the head.  No confirmation depth is
    subtracted anywhere. -/
def processEthereumEvents (current_block from_block : Nat)
    (lock_events : List EthLockEvent) : List BridgeEvent × Nat :=
  if current_block ≤ from_block then ([], from_block)
  else
    (lock_events.map (fun e =>
      .EthereumLock e.user e.token e.amount e.polkadot_address "mock_tx_hash"
        current_block),
     current_block)

/-- One iteration of the `monitor_ethereum_events` loop: run
    `process_ethereum_events` from the in-memory cursor `last`; when the
    returned block is greater, adopt it and persist it with
    `set_last_processed_ethereum_block`.  Returns the store, the new in-memory
    cursor and the events emitted into the queue. -/
def ethMonitorIteration (db : Database) (last head : Nat)
    (lock_events : List EthLockEvent) : Database × Nat × List BridgeEvent :=
  let step := processEthereumEvents head last lock_events
  if last < step.2 then
    (db.setLastProcessedEthereumBlock step.2, step.2, step.1)
  else
    (db, last, step.1)

/-- A raw burn event as fetched from the Polkadot client. -/
structure DotBurnEvent where
  burner : String
  asset_id : Nat
  amount : String
  ethereum_recipient : String
  tx_hash : String
  block_number : Nat
  deriving DecidableEq, Repr

/-- `EventMonitor::process_polkadot_events` (same cursor discipline as the
    Ethereum side). -/
def processPolkadotEvents (current_block from_block : Nat)
    (burn_events : List DotBurnEvent) : List BridgeEvent × Nat :=
  if current_block ≤ from_block then ([], from_block)
  else
    (burn_events.map (fun e =>
      .PolkadotBurn e.burner e.asset_id e.amount e.ethereum_recipient
        e.tx_hash e.block_number),
     current_block)

/-- One iteration of the `monitor_polkadot_events` loop. -/
def dotMonitorIteration (db : Database) (last head : Nat)
    (burn_events : List DotBurnEvent) : Database × Nat × List BridgeEvent :=
  let step := processPolkadotEvents head last burn_events
  if last < step.2 then
    (db.setLastProcessedPolkadotBlock step.2, step.2, step.1)
  else
    (db, last, step.1)

/-! ## Claim C1 — keying of the processed set

The `processed_transactions` table is NOT keyed by the pair `(chain, src_tx)`:
its uniqueness constraint is `tx_hash VARCHAR(66) NOT NULL UNIQUE`, on the
transaction hash alone, and both mark functions insert with
`ON CONFLICT (tx_hash) DO NOTHING`.  Reads do filter by chain, so marking for
one chain never makes `is_processed` answer `true` for the other — but it
permanently prevents the other chain's mark from inserting its row. -/

/-- A store whose processed set already holds `"0xabc"` for Ethereum. -/
def c1Db : Database :=
  { ethereum_locks := []
    polkadot_burns := []
    processed_transactions := [⟨"0xabc", "ethereum"⟩]
    bridge_state := []
    token_mappings := [] }

/-- C1, counterexample: with `"0xabc"` already marked for Ethereum, calling
    `mark_polkadot_tx_processed` for the same hash is a silent no-op (the
    `tx_hash`-only conflict fires), so the claimed
    `is_processed(polkadot, t) = true` after the mark is false, and marking
    for the other chain IS prevented, contradicting the claim. -/
theorem c1_counterexample :
    c1Db.isTxProcessed Chain.ethereum "0xabc" = true ∧
    c1Db.markTxProcessed Chain.polkadot "0xabc" = c1Db ∧
    ¬ ((c1Db.markTxProcessed Chain.polkadot "0xabc").isTxProcessed
        Chain.polkadot "0xabc" = true) := by
  decide

/-- C1, amended: for either chain `c` and hash `t`, (i) in any store state in
    which NO chain has `t` in the processed set, marking `(c, t)` makes
    `is_processed (c, t)` true while `is_processed (other c, t)` stays false
    (the set is read per `(chain, src_tx)` pair); but (ii) whenever the OTHER
    chain already has `t` marked, marking `(c, t)` is a no-op — the
    `tx_hash`-only uniqueness makes the cross-chain mark silently fail. -/
theorem c1_amended (db : Database) (c : Chain) (t : String) :
    (db.processed_transactions.any (fun r => r.tx_hash == t) = false →
      ((db.markTxProcessed c t).isTxProcessed c t = true ∧
       (db.markTxProcessed c t).isTxProcessed c.other t = false)) ∧
    (db.isTxProcessed c.other t = true →
      db.markTxProcessed c t = db) := by
  have hgen : db.processed_transactions.any (fun r => r.tx_hash == t) = false →
      ∀ ch : String,
        db.processed_transactions.any
          (fun r => r.tx_hash == t && r.chain == ch) = false := by
    intro hfresh ch
    rw [List.any_eq_false] at hfresh ⊢
    intro r hr
    have := hfresh r hr
    simp only [Bool.and_eq_true, not_and]
    intro htx
    exact absurd htx this
  constructor
  · intro hfresh
    have hmark : db.processed_transactions.any (fun r => r.tx_hash == t) =
        false := hfresh
    cases c <;>
      simp [Database.markTxProcessed, Database.markEthereumTxProcessed,
        Database.markPolkadotTxProcessed, Database.isTxProcessed,
        Database.isEthereumTxProcessed, Database.isPolkadotTxProcessed,
        Chain.other, hmark, List.any_append, hgen hfresh]
  · intro hother
    have hany : db.processed_transactions.any (fun r => r.tx_hash == t) =
        true := by
      cases c <;>
        · simp only [Database.isTxProcessed, Database.isEthereumTxProcessed,
            Database.isPolkadotTxProcessed, Chain.other] at hother
          rcases List.any_eq_true.mp hother with ⟨r, hr, hp⟩
          rw [Bool.and_eq_true] at hp
          exact List.any_eq_true.mpr ⟨r, hr, hp.1⟩
    cases c <;>
      simp [Database.markTxProcessed, Database.markEthereumTxProcessed,
        Database.markPolkadotTxProcessed, hany]

/-- C1, witness for the amended theorem at a concrete input: marking
    `(ethereum, "0xabc")` in the empty store makes it processed for Ethereum
    and not for Polkadot. -/
theorem c1_amended_witness :
    (Database.empty.markTxProcessed Chain.ethereum "0xabc").isTxProcessed
        Chain.ethereum "0xabc" = true ∧
    (Database.empty.markTxProcessed Chain.ethereum "0xabc").isTxProcessed
        (Chain.ethereum).other "0xabc" = false :=
  (c1_amended Database.empty Chain.ethereum "0xabc").1 (by decide)

/-! ## Claim C2 — replay of a processed `src_tx` has no effect -/

/-- C2: when the event's `(chain, src_tx)` pair is already in the processed
    set, `handle_event` returns `Ok(())` immediately: the store and the
    session map are unchanged, no signing session is created or touched, and
    no `mint_tokens`/`unlock_tokens` submission is made. -/
theorem c2_replay_no_effect (cfg : ValidatorConfig)
    (tm : SimpleThresholdManager) (st : RelayerState) (e : BridgeEvent)
    (now : Nat) (h : st.db.isTxProcessed e.chain e.txHash = true) :
    handleEvent cfg tm st e now = (st, [], .ok ()) := by
  cases e <;>
    · simp only [BridgeEvent.chain, BridgeEvent.txHash,
        Database.isTxProcessed] at h
      simp [handleEvent, handleEthereumLock, handlePolkadotBurn, h]

/-- A state whose processed set already holds `("ethereum", "0xdead")`. -/
def c2State : RelayerState :=
  ⟨{ ethereum_locks := []
     polkadot_burns := []
     processed_transactions := [⟨"0xdead", "ethereum"⟩]
     bridge_state := []
     token_mappings := [] }, []⟩

/-- C2, witness: replaying a lock event for the already-processed `"0xdead"`
    leaves the state untouched and performs no submission. -/
theorem c2_replay_no_effect_witness :
    handleEvent ⟨"v1", none, [], true⟩ ⟨⟨2, 3, 256⟩, .Ecdsa⟩ c2State
      (.EthereumLock "u" "tok" "10" "addr" "0xdead" 5) 0 =
      (c2State, [], .ok ()) :=
  c2_replay_no_effect ⟨"v1", none, [], true⟩ ⟨⟨2, 3, 256⟩, .Ecdsa⟩ c2State
    (.EthereumLock "u" "tok" "10" "addr" "0xdead" 5) 0 (by decide)

/-! ## Association-list lemmas -/

theorem alLookup_cons {α : Type} (k0 : String) (v0 : α)
    (tl : List (String × α)) (k : String) :
    alLookup ((k0, v0) :: tl) k =
      if k0 == k then some v0 else alLookup tl k := by
  cases h : (k0 == k) <;> simp [alLookup, List.find?_cons, h]

theorem alInsert_cons_ne {α : Type} (k0 : String) (v0 : α)
    (tl : List (String × α)) (k : String) (v : α) (h : ¬ k0 = k) :
    alInsert ((k0, v0) :: tl) k v = (k0, v0) :: alInsert tl k v := by
  have hbeq : (k0 == k) = false := by simpa using h
  simp only [alInsert, List.any_cons, hbeq, Bool.false_or]
  cases htl : tl.any (fun p => p.1 == k) <;>
    simp [hbeq, List.cons_append, h]

theorem alLookup_alInsert {α : Type} (l : List (String × α)) (k : String)
    (v : α) : alLookup (alInsert l k v) k = some v := by
  induction l with
  | nil => simp [alInsert, alLookup]
  | cons hd tl ih =>
    obtain ⟨k0, v0⟩ := hd
    by_cases hk : k0 = k
    · subst hk
      have h1 : ((k0, v0) :: tl).any (fun p => p.1 == k0) = true := by
        simp [List.any_cons]
      simp only [alInsert, h1, if_true, List.map_cons, beq_self_eq_true,
        if_true]
      rw [alLookup_cons]
      simp
    · rw [alInsert_cons_ne k0 v0 tl k v hk, alLookup_cons]
      have hbeq : (k0 == k) = false := by simpa using hk
      rw [hbeq]
      simpa using ih

theorem alUpdate_lookup_none {α : Type} (l : List (String × α)) (k : String)
    (f : α → α) (h : alLookup l k = none) : alUpdate l k f = l := by
  induction l with
  | nil => rfl
  | cons hd tl ih =>
    obtain ⟨k0, v0⟩ := hd
    simp only [alLookup, List.find?_cons] at h
    by_cases hk : k0 == k
    · simp [hk] at h
    · simp only [show (k0 == k) = false by simpa using hk] at h
      simp only [alUpdate, show (k0 == k) = false by simpa using hk,
        Bool.false_eq_true, if_false, List.cons.injEq, true_and]
      exact ih (by simpa [alLookup] using h)

theorem alLookup_alUpdate {α : Type} (l : List (String × α)) (k : String)
    (f : α → α) : alLookup (alUpdate l k f) k = (alLookup l k).map f := by
  induction l with
  | nil => simp [alUpdate, alLookup]
  | cons hd tl ih =>
    obtain ⟨k0, v0⟩ := hd
    by_cases hk : k0 == k
    · have hk' : k0 = k := by simpa using hk
      simp [alUpdate, alLookup, List.find?_cons, hk']
    · simp only [alUpdate, show (k0 == k) = false by simpa using hk,
        Bool.false_eq_true, if_false]
      simp only [alLookup, List.find?_cons,
        show (k0 == k) = false by simpa using hk] at *
      exact ih

/-! ## Claim C6 — `add_partial_signature` admission contract

The relayer's `SignatureCoordinator::add_partial_signature` (the cited
symbol) has NO failure path: a missing session is silently ignored rather
than `SessionNotFound`, a repeated contribution by the same validator
overwrites the stored partial rather than `DuplicateSignature`, and the
partial is never verified against the validator's public share. -/

/-- A first partial from validator `"v1"`. -/
def c6Partial1 : PartialSignature := ⟨"v1", [1], none, 0⟩

/-- A second, different partial from the same validator `"v1"`. -/
def c6Partial2 : PartialSignature := ⟨"v1", [2], none, 1⟩

/-- A session that already contains `"v1"`'s partial. -/
def c6Session : SignatureSession := ⟨"0xt", [], [("v1", c6Partial1)], 2, 0⟩

/-- C6, counterexample: adding to an absent session returns `Ok(())` (the
    claim requires `SessionNotFound`), and adding a second partial from a
    validator that already contributed also returns `Ok(())` and silently
    overwrites the first (the claim requires `DuplicateSignature`). -/
theorem c6_counterexample :
    addPartialSignature [] "0xt" "v1" c6Partial1 = ([], .ok ()) ∧
    addPartialSignature [("0xt", c6Session)] "0xt" "v1" c6Partial2 =
      ([("0xt", { c6Session with partial_signatures := [("v1", c6Partial2)] })],
        .ok ()) := by
  decide

/-- C6, amended: `add_partial_signature` always returns `Ok(())`; when the
    session is absent the map is left unchanged (no `SessionNotFound`), and
    when it is present the validator's partial is inserted, overwriting any
    previous contribution by the same validator (no `DuplicateSignature`) and
    without any verification against a public share. -/
theorem c6_amended (pending : PendingSignatures) (tx vid : String)
    (p : PartialSignature) :
    (addPartialSignature pending tx vid p).2 = .ok () ∧
    (alLookup pending tx = none →
      (addPartialSignature pending tx vid p).1 = pending) ∧
    (∀ s, alLookup pending tx = some s →
      alLookup (addPartialSignature pending tx vid p).1 tx =
        some ({ s with
                partial_signatures := alInsert s.partial_signatures vid p })) := by
  refine ⟨rfl, ?_, ?_⟩
  · intro h
    exact alUpdate_lookup_none pending tx _ h
  · intro s hs
    show alLookup (alUpdate pending tx _) tx = _
    rw [alLookup_alUpdate, hs]
    rfl

/-- C6, witness for the amended theorem: adding to the empty session map
    leaves it empty (and returns `Ok`). -/
theorem c6_amended_witness :
    (addPartialSignature [] "0xt" "v1" c6Partial1).1 = [] :=
  (c6_amended [] "0xt" "v1" c6Partial1).2.1 (by decide)

/-! ## Claim C10 — `request_*_signature` replaces any existing session

`request_mint_signature` and `request_unlock_signature` build a fresh
`SignatureSession` with an empty `partial_signatures` map and
`pending.insert(tx_hash, session)` it, discarding whatever session (and
partials) the map held for that hash; afterwards at most the local
validator's own partial has been admitted.  The functions are no-ops when
validator mode is disabled, but in a run with a disabled validator the
session map can never become non-empty, so the replacement is unconditional
on every reachable state in which a session exists. -/

/-- Session-map states reachable in one coordinator run: starting empty and
    applying the operations that touch `pending_signatures`
    (`request_mint_signature`, `request_unlock_signature`,
    `add_partial_signature`, the expiry reaper). -/
inductive ReachablePending (cfg : ValidatorConfig)
    (tm : SimpleThresholdManager) : PendingSignatures → Prop where
  | init : ReachablePending cfg tm []
  | reqMint (st : PendingSignatures) (r tok amt tx : String) (now : Nat) :
      ReachablePending cfg tm st →
      ReachablePending cfg tm
        (requestMintSignature cfg tm st r tok amt tx now).1
  | reqUnlock (st : PendingSignatures) (r : String) (aid : Nat)
      (amt tx : String) (now : Nat) :
      ReachablePending cfg tm st →
      ReachablePending cfg tm
        (requestUnlockSignature cfg tm st r aid amt tx now).1
  | addPartialSig (st : PendingSignatures) (tx vid : String)
      (p : PartialSignature) :
      ReachablePending cfg tm st →
      ReachablePending cfg tm (addPartialSignature st tx vid p).1
  | cleanup (st : PendingSignatures) (now : Nat) :
      ReachablePending cfg tm st →
      ReachablePending cfg tm (cleanupExpiredSignatures st now)

theorem reachable_disabled (cfg : ValidatorConfig)
    (tm : SimpleThresholdManager) (h : cfg.enabled = false)
    (st : PendingSignatures) (hre : ReachablePending cfg tm st) : st = [] := by
  induction hre with
  | init => rfl
  | reqMint st r tok amt tx now _ ih =>
    simp [requestMintSignature, h, ih]
  | reqUnlock st r aid amt tx now _ ih =>
    simp [requestUnlockSignature, h, ih]
  | addPartialSig st tx vid p _ ih =>
    simp [addPartialSignature, ih, alUpdate]
  | cleanup st now _ ih =>
    simp [cleanupExpiredSignatures, ih]

/-- C10: on every reachable coordinator state that already holds a signing
    session for `tx`, `request_mint_signature` (resp.
    `request_unlock_signature`) replaces it with a fresh session carrying the
    newly built message, the configured threshold and the call's timestamp;
    all previously collected partials are discarded, and afterwards the
    session holds at most one partial, which can only be the local
    validator's own. -/
theorem c10_request_replaces_session (cfg : ValidatorConfig)
    (tm : SimpleThresholdManager) (st : PendingSignatures) (tx : String)
    (hre : ReachablePending cfg tm st) (hex : alLookup st tx ≠ none)
    (r tok amt : String) (aid : Nat) (now : Nat) :
    (∃ s, alLookup (requestMintSignature cfg tm st r tok amt tx now).1 tx =
        some s ∧
      s.created_at = now ∧
      s.message = createMintMessage r tok amt tx ∧
      s.required_signatures = tm.config.threshold ∧
      s.partial_signatures.length ≤ 1 ∧
      ∀ q ∈ s.partial_signatures, q.1 = cfg.validator_id) ∧
    (∃ s, alLookup (requestUnlockSignature cfg tm st r aid amt tx now).1 tx =
        some s ∧
      s.created_at = now ∧
      s.message = createUnlockMessage r aid amt tx ∧
      s.required_signatures = tm.config.threshold ∧
      s.partial_signatures.length ≤ 1 ∧
      ∀ q ∈ s.partial_signatures, q.1 = cfg.validator_id) := by
  have henabled : cfg.enabled = true := by
    cases he : cfg.enabled
    · rw [reachable_disabled cfg tm he st hre] at hex
      exact absurd rfl hex
    · rfl
  constructor
  · simp only [requestMintSignature, henabled, not_true, if_false]
    cases hpk : cfg.private_key with
    | none =>
      exact ⟨_, alLookup_alInsert st tx _, rfl, rfl, rfl, by simp, by simp⟩
    | some pk =>
      cases hks : getValidatorKeyShare cfg pk with
      | error e =>
        simp only [hks]
        exact ⟨_, alLookup_alInsert st tx _, rfl, rfl, rfl, by simp, by simp⟩
      | ok key_share =>
        simp only [hks]
        cases hcp : createPartialSignature tm key_share
            (createMintMessage r tok amt tx) tx now with
        | error e =>
          simp only [hcp]
          exact ⟨_, alLookup_alInsert st tx _, rfl, rfl, rfl, by simp,
            by simp⟩
        | ok partial_sig =>
          simp only [hcp]
          refine
            ⟨{ tx_hash := tx,
               message := createMintMessage r tok amt tx,
               partial_signatures := alInsert [] cfg.validator_id partial_sig,
               required_signatures := tm.config.threshold,
               created_at := now },
             ?_, rfl, rfl, rfl, by simp [alInsert], by simp [alInsert]⟩
          show alLookup (alUpdate (alInsert st tx _) tx _) tx = _
          rw [alLookup_alUpdate, alLookup_alInsert]
          rfl
  · simp only [requestUnlockSignature, henabled, not_true, if_false]
    cases hpk : cfg.private_key with
    | none =>
      exact ⟨_, alLookup_alInsert st tx _, rfl, rfl, rfl, by simp, by simp⟩
    | some pk =>
      cases hks : getValidatorKeyShare cfg pk with
      | error e =>
        simp only [hks]
        exact ⟨_, alLookup_alInsert st tx _, rfl, rfl, rfl, by simp, by simp⟩
      | ok key_share =>
        simp only [hks]
        cases hcp : createPartialSignature tm key_share
            (createUnlockMessage r aid amt tx) tx now with
        | error e =>
          simp only [hcp]
          exact ⟨_, alLookup_alInsert st tx _, rfl, rfl, rfl, by simp,
            by simp⟩
        | ok partial_sig =>
          simp only [hcp]
          refine
            ⟨{ tx_hash := tx,
               message := createUnlockMessage r aid amt tx,
               partial_signatures := alInsert [] cfg.validator_id partial_sig,
               required_signatures := tm.config.threshold,
               created_at := now },
             ?_, rfl, rfl, rfl, by simp [alInsert], by simp [alInsert]⟩
          show alLookup (alUpdate (alInsert st tx _) tx _) tx = _
          rw [alLookup_alUpdate, alLookup_alInsert]
          rfl

/-- Concrete validator config (enabled, no private key) for the C10 witness. -/
def c10cfg : ValidatorConfig := ⟨"v1", none, [], true⟩

/-- Concrete threshold manager for the C10 witness. -/
def c10tm : SimpleThresholdManager := ⟨⟨2, 3, 256⟩, .Ecdsa⟩

/-- C10, witness: after opening a session for `"0xa"` and re-requesting a mint
    signature for the same hash, the stored session is the fresh one. -/
theorem c10_request_replaces_session_witness :
    ∃ s, alLookup (requestMintSignature c10cfg c10tm
        (requestMintSignature c10cfg c10tm [] "r" "t" "5" "0xa" 0).1
        "r2" "t2" "7" "0xa" 9).1 "0xa" = some s ∧
      s.created_at = 9 ∧
      s.message = createMintMessage "r2" "t2" "7" "0xa" ∧
      s.required_signatures = c10tm.config.threshold ∧
      s.partial_signatures.length ≤ 1 ∧
      ∀ q ∈ s.partial_signatures, q.1 = c10cfg.validator_id :=
  (c10_request_replaces_session c10cfg c10tm _ "0xa"
    (ReachablePending.reqMint [] "r" "t" "5" "0xa" 0 ReachablePending.init)
    (by decide) "r2" "t2" "7" 3 9).1

/-! ## Claim C7 — canonical message bytes

The spec's canonical byte serialization (domain tag, fixed-width big-endian
integers, the Chain-B asset id obtained from the token map) is not what the
code builds: `create_mint_message` and `create_unlock_message` are plain
`format!` strings — colon-separated, with the Chain-A token address (mint)
respectively the raw asset id in decimal (unlock), the amount as a decimal
string, and no token-map lookup at all. -/

/-- Big-endian 4-byte (u32) encoding of `n`. -/
def bytes4BE (n : Nat) : List Nat :=
  (List.range 4).map (fun i => n / 256 ^ (3 - i) % 256)

/-- Big-endian 16-byte (u128) encoding of `n`. -/
def bytes16BE (n : Nat) : List Nat :=
  (List.range 16).map (fun i => n / 256 ^ (15 - i) % 256)

/-- Modelled from the spec (§4.4 "Message canonicalization", absent from the
    code): `domain_tag("mint") || recipient_B || asset_id(token_A) || amount
    || src_tx` with the asset id as a fixed-width big-endian `u32` and the
    amount as a fixed-width big-endian `u128`. -/
def specMintMessage (recipient_B : List Nat) (asset_id : Nat) (amount : Nat)
    (src_tx : List Nat) : List Nat :=
  strBytes "mint" ++ recipient_B ++ bytes4BE asset_id ++ bytes16BE amount ++
    src_tx

/-- Modelled from the spec (§4.4, absent from the code):
    `domain_tag("unlock") || recipient_A || token_A(asset_id) || amount ||
    src_tx`. -/
def specUnlockMessage (recipient_A : List Nat) (token_A : List Nat)
    (amount : Nat) (src_tx : List Nat) : List Nat :=
  strBytes "unlock" ++ recipient_A ++ token_A ++ bytes16BE amount ++ src_tx

/-- C7, counterexample: for the lock request with recipient `"r"`, Chain-A
    token `"t"` (mapped to asset id 1), amount 5 and source tx `"x"`, the
    message the code hands to partial signing is the ASCII of
    `"mint:r:t:5:x"`, which is not the spec's canonical concatenation (and
    likewise for unlock). -/
theorem c7_counterexample :
    createMintMessage "r" "t" "5" "x" = strBytes "mint:r:t:5:x" ∧
    createMintMessage "r" "t" "5" "x" ≠
      specMintMessage (strBytes "r") 1 5 (strBytes "x") ∧
    createUnlockMessage "r" 1 "5" "x" ≠
      specUnlockMessage (strBytes "r") (strBytes "t") 5 (strBytes "x") := by
  refine ⟨rfl, ?_, ?_⟩ <;> decide

/-- C7, amended: the signed message is the UTF-8 of a colon-separated
    `format!` string.  A domain tag (`"mint:"` / `"unlock:"`) does prefix the
    message, but the token field is the Chain-A token address exactly as
    received (mint) respectively the decimal asset id (unlock) — the token
    map is never consulted — and the amount and asset id are decimal strings,
    not fixed-width big-endian integers. -/
theorem c7_amended (r tok amt tx : String) (aid : Nat) :
    createMintMessage r tok amt tx =
      strBytes "mint:" ++ strBytes r ++ strBytes ":" ++ strBytes tok ++
        strBytes ":" ++ strBytes amt ++ strBytes ":" ++ strBytes tx ∧
    createUnlockMessage r aid amt tx =
      strBytes "unlock:" ++ strBytes r ++ strBytes ":" ++
        strBytes (toString aid) ++ strBytes ":" ++ strBytes amt ++
        strBytes ":" ++ strBytes tx := by
  constructor <;>
    simp [createMintMessage, createUnlockMessage, strBytes,
      String.data_append]

/-! ## Claim C8 — watcher cursor discipline

The watcher loops never subtract a confirmation depth: each iteration fetches
events from `last+1` up to the chain head itself and advances the persisted
cursor to the head whenever `head > last`.  The `confirmations` values in the
relayer config (`ETHEREUM_CONFIRMATIONS` default 12, `POLKADOT_CONFIRMATIONS`
default 6) are never consulted by `event_monitor.rs`.  Monotonicity does
hold. -/

/-- C8, counterexample: with cursor 100, head 101 and the default
    confirmation depth 12, the claim demands the watcher sleep (safe = 89 ≤
    100) and keep the cursor at most `head − confirmations = 89`; instead the
    iteration advances and persists the cursor to the head, 101. -/
theorem c8_counterexample :
    (ethMonitorIteration Database.empty 100 101 []).2.1 = 101 ∧
    ((ethMonitorIteration Database.empty 100 101
        []).1).getLastProcessedEthereumBlock = some 101 ∧
    101 - ethereumDefaultConfirmations ≤ 100 ∧
    ¬ ((ethMonitorIteration Database.empty 100 101 []).2.1 ≤
        101 - ethereumDefaultConfirmations) := by
  decide

/-- C8, amended: for both chains, one watcher iteration is monotone in the
    cursor and bounded by `max last head`; it leaves everything untouched
    exactly when `head ≤ last` (not when `head − confirmations ≤ last`), and
    whenever `last < head` it advances the in-memory cursor to the HEAD and
    persists that value — no confirmation depth is subtracted. -/
theorem c8_amended (db : Database) (last head : Nat)
    (evs : List EthLockEvent) (burns : List DotBurnEvent) :
    (last ≤ (ethMonitorIteration db last head evs).2.1 ∧
     (ethMonitorIteration db last head evs).2.1 ≤ max last head ∧
     (head ≤ last → ethMonitorIteration db last head evs = (db, last, [])) ∧
     (last < head → (ethMonitorIteration db last head evs).2.1 = head ∧
       ((ethMonitorIteration db last head
           evs).1).getLastProcessedEthereumBlock = some head)) ∧
    (last ≤ (dotMonitorIteration db last head burns).2.1 ∧
     (dotMonitorIteration db last head burns).2.1 ≤ max last head ∧
     (head ≤ last → dotMonitorIteration db last head burns = (db, last, [])) ∧
     (last < head → (dotMonitorIteration db last head burns).2.1 = head ∧
       ((dotMonitorIteration db last head
           burns).1).getLastProcessedPolkadotBlock = some head)) := by
  by_cases h : head ≤ last
  · have hnl : ¬ last < head := not_lt.mpr h
    refine ⟨⟨?_, ?_, ?_, ?_⟩, ⟨?_, ?_, ?_, ?_⟩⟩ <;>
      simp [ethMonitorIteration, dotMonitorIteration, processEthereumEvents,
        processPolkadotEvents, h, hnl]
  · have hlt : last < head := not_le.mp h
    have hle : last ≤ head := le_of_lt hlt
    refine ⟨⟨?_, ?_, ?_, ?_⟩, ⟨?_, ?_, ?_, ?_⟩⟩ <;>
      simp [ethMonitorIteration, dotMonitorIteration, processEthereumEvents,
        processPolkadotEvents, h, hlt, hle, Database.getLastProcessedEthereumBlock,
        Database.setLastProcessedEthereumBlock,
        Database.getLastProcessedPolkadotBlock,
        Database.setLastProcessedPolkadotBlock, alLookup_alInsert]

/-- C8, witness for the amended theorem: from cursor 100 with head 101 the
    iteration advances to exactly 101 and persists it. -/
theorem c8_amended_witness :
    (ethMonitorIteration Database.empty 100 101 []).2.1 = 101 ∧
    ((ethMonitorIteration Database.empty 100 101
        []).1).getLastProcessedEthereumBlock = some 101 :=
  (c8_amended Database.empty 100 101 [] []).1.2.2.2 (by decide)

/-! ## Claim C9 — deterministic partial signing

`create_partial_signature` derives the signature bytes purely from the key
share, the message and the session id: the digest is
`hash_with_domain(session_id, message)` and `k256`'s RFC 6979 signing is
deterministic.  The only wall-clock dependent field of the returned
`PartialSignature` is its `timestamp`; the validator id, the signature bytes
and the (absent) commitment are reproduced exactly on a retry. -/

/-- C9: two calls of `create_partial_signature` with the same key share,
    message and session id yield the same outcome up to the `timestamp`
    wall-clock stamp — in particular the same signature bytes — including
    agreement on the error cases. -/
theorem c9_partial_sign_deterministic (m : SimpleThresholdManager)
    (ks : KeyShare) (msg : List Nat) (sid : String) (t1 t2 : Nat) :
    (createPartialSignature m ks msg sid t1).map
        (fun p => (p.validator_id, p.signature, p.commitment)) =
      (createPartialSignature m ks msg sid t2).map
        (fun p => (p.validator_id, p.signature, p.commitment)) := by
  unfold createPartialSignature
  by_cases h1 : ks.private_share.length = 32
  · simp only [h1, if_true]
    by_cases h2 : k256SkValid ks.private_share <;> simp [h2, Except.map]
  · simp [h1]

/-! ## Claim C4 — aggregation error behaviour

`aggregate_signatures` fails with `InsufficientSignatures` exactly when fewer
than `threshold` partials are given; but above the threshold it NEVER
verifies anything: the computed message context is dropped unused and the
first partial's bytes are returned as a successful aggregate, whether or not
they verify under the combined public key.  `InvalidSignature` is not a
possible result. -/

/-- Manager for the C4 counterexample: a valid `(1,1)` configuration. -/
def c4m : SimpleThresholdManager := ⟨⟨1, 1, 256⟩, .Ecdsa⟩

/-- A partial whose 64 signature bytes are garbage (they parse, but verify
    under no key). -/
def c4garbage : PartialSignature := ⟨"v1", List.replicate 64 1, none, 0⟩

/-- The combined public key of the sole share used in the counterexample. -/
def c4pub : List Nat := k256PubkeyBytes (bytes32BE 1)

/-- The aggregate the code returns for the garbage partial. -/
def c4agg : AggregatedSignature :=
  ⟨List.replicate 64 1, ["v1"], [], "ecdsa-simple", 0⟩

/-- C4, counterexample: with threshold 1 and one garbage partial,
    `aggregate_signatures` succeeds — although the aggregated `(r,s)` does
    not verify under the combined public key (`verify_signature` answers
    `Ok(false)`), where the claim requires an `InvalidSignature` error and no
    successful aggregate. -/
theorem c4_counterexample :
    computeCombinedPublicKey [⟨"v1", c4pub, c4pub⟩] = .ok c4pub ∧
    aggregateSignatures c4m [c4garbage] [⟨"v1", c4pub, c4pub⟩] [7] "sid" 0 =
      .ok c4agg ∧
    verifySignature c4m c4agg [7] c4pub "sid" = .ok false := by
  refine ⟨rfl, rfl, ?_⟩
  decide

/-- C4, amended: for a manager built by `SimpleThresholdManager::new` (so
    `threshold ≥ 1`), `aggregate_signatures` returns
    `InsufficientSignatures { required := k, received := |partials| }` if and
    only if `|partials| < k`; and whenever `|partials| ≥ k` it succeeds
    unconditionally, returning the FIRST partial's bytes with the first `k`
    validator ids as signers — no verification is performed and
    `InvalidSignature` is never returned. -/
theorem c4_amended (cfg : ThresholdConfig) (m : SimpleThresholdManager)
    (hnew : SimpleThresholdManager.new cfg = .ok m)
    (partials : List PartialSignature) (pubs : List PublicKeyShare)
    (msg : List Nat) (sid : String) (now : Nat) :
    (aggregateSignatures m partials pubs msg sid now =
        .error (.InsufficientSignatures cfg.threshold partials.length) ↔
      partials.length < cfg.threshold) ∧
    (cfg.threshold ≤ partials.length →
      ∃ first rest, partials = first :: rest ∧
        aggregateSignatures m partials pubs msg sid now =
          .ok ⟨first.signature,
            (partials.take cfg.threshold).map (fun s => s.validator_id),
            [], "ecdsa-simple", now⟩) := by
  have hval : ¬ (cfg.threshold > cfg.total_validators ∨ cfg.threshold = 0) ∧
      m = ⟨cfg, .Ecdsa⟩ := by
    unfold SimpleThresholdManager.new ThresholdConfig.validate at hnew
    by_cases h : cfg.threshold > cfg.total_validators ∨ cfg.threshold = 0
    · simp [h] at hnew
    · simp only [h, if_false, if_true] at hnew
      cases hnew
      exact ⟨h, rfl⟩
  obtain ⟨hcond, hm⟩ := hval
  have hk1 : 1 ≤ cfg.threshold := by omega
  subst hm
  constructor
  · by_cases hlt : partials.length < cfg.threshold
    · simp [aggregateSignatures, hlt]
    · have hge : cfg.threshold ≤ partials.length := not_lt.mp hlt
      cases partials with
      | nil => simp at hge; omega
      | cons f r => simp [aggregateSignatures, hlt]
  · intro hge
    have hlt : ¬ partials.length < cfg.threshold := not_lt.mpr hge
    cases partials with
    | nil => simp at hge; omega
    | cons f r =>
      refine ⟨f, r, rfl, ?_⟩
      unfold aggregateSignatures
      rw [if_neg hlt]

/-- C4, witness for the amended theorem: with threshold 1 and no partials the
    code returns `InsufficientSignatures { required := 1, received := 0 }`. -/
theorem c4_amended_witness :
    aggregateSignatures ⟨⟨1, 2, 256⟩, .Ecdsa⟩ [] [] [] "s" 0 =
      .error (.InsufficientSignatures 1 0) :=
  (c4_amended ⟨1, 2, 256⟩ ⟨⟨1, 2, 256⟩, .Ecdsa⟩ (by decide) [] [] [] "s"
    0).1.mpr (by decide)

/-! ## Claim C5 — permutation invariance of aggregation

The result of `aggregate_signatures` depends on the ORDER of its input: the
aggregate's bytes are those of the first partial and its signer list is the
first `threshold` validator ids.  Permuting the partials changes the
result. -/

/-- Manager for the C5 theorems: a valid `(1,2)` configuration. -/
def c5m : SimpleThresholdManager := ⟨⟨1, 2, 256⟩, .Ecdsa⟩

/-- Partial from validator `"A"`. -/
def c5p1 : PartialSignature := ⟨"A", List.replicate 64 1, none, 0⟩

/-- Partial from validator `"B"`, with different bytes. -/
def c5p2 : PartialSignature := ⟨"B", List.replicate 64 2, none, 0⟩

/-- C5, counterexample: `[c5p2, c5p1]` is a permutation of `[c5p1, c5p2]`,
    both of size ≥ threshold = 1, yet aggregation returns different
    `AggregatedSignature`s on the two orders. -/
theorem c5_counterexample :
    [c5p2, c5p1].Perm [c5p1, c5p2] ∧
    c5m.config.threshold ≤ [c5p1, c5p2].length ∧
    aggregateSignatures c5m [c5p1, c5p2] [] [] "s" 0 ≠
      aggregateSignatures c5m [c5p2, c5p1] [] [] "s" 0 := by
  refine ⟨List.Perm.swap c5p1 c5p2 [], by decide, by decide⟩

/-- C5, amended: aggregation depends only on the first `threshold` partials:
    whenever two input lists of size ≥ `threshold ≥ 1` share the same
    `threshold`-prefix, the aggregates coincide — so the result is invariant
    exactly under reorderings that preserve the `threshold`-prefix, not under
    arbitrary permutations. -/
theorem c5_amended (cfg : ThresholdConfig) (m : SimpleThresholdManager)
    (hnew : SimpleThresholdManager.new cfg = .ok m)
    (l1 l2 : List PartialSignature)
    (htake : l1.take cfg.threshold = l2.take cfg.threshold)
    (h1 : cfg.threshold ≤ l1.length) (h2 : cfg.threshold ≤ l2.length)
    (pubs : List PublicKeyShare) (msg : List Nat) (sid : String) (now : Nat) :
    aggregateSignatures m l1 pubs msg sid now =
      aggregateSignatures m l2 pubs msg sid now := by
  have hval : ¬ (cfg.threshold > cfg.total_validators ∨ cfg.threshold = 0) ∧
      m = ⟨cfg, .Ecdsa⟩ := by
    unfold SimpleThresholdManager.new ThresholdConfig.validate at hnew
    by_cases h : cfg.threshold > cfg.total_validators ∨ cfg.threshold = 0
    · simp [h] at hnew
    · simp only [h, if_false, if_true] at hnew
      cases hnew
      exact ⟨h, rfl⟩
  obtain ⟨hcond, hm⟩ := hval
  subst hm
  obtain ⟨j, hj⟩ : ∃ j, cfg.threshold = j + 1 := ⟨cfg.threshold - 1, by omega⟩
  have hlt1 : ¬ l1.length < cfg.threshold := not_lt.mpr h1
  have hlt2 : ¬ l2.length < cfg.threshold := not_lt.mpr h2
  cases l1 with
  | nil => simp at h1; omega
  | cons f1 r1 =>
    cases l2 with
    | nil => simp at h2; omega
    | cons f2 r2 =>
      have hf : f1 = f2 := by
        rw [hj] at htake
        simp only [List.take_succ_cons, List.cons.injEq] at htake
        exact htake.1
      have e1 : aggregateSignatures ⟨cfg, .Ecdsa⟩ (f1 :: r1) pubs msg sid now =
          .ok ⟨f1.signature,
            ((f1 :: r1).take cfg.threshold).map (fun s => s.validator_id),
            [], "ecdsa-simple", now⟩ := by
        unfold aggregateSignatures
        rw [if_neg hlt1]
      have e2 : aggregateSignatures ⟨cfg, .Ecdsa⟩ (f2 :: r2) pubs msg sid now =
          .ok ⟨f2.signature,
            ((f2 :: r2).take cfg.threshold).map (fun s => s.validator_id),
            [], "ecdsa-simple", now⟩ := by
        unfold aggregateSignatures
        rw [if_neg hlt2]
      rw [e1, e2, htake, hf]

/-- C5, witness for the amended theorem: dropping the second partial (which
    preserves the threshold-1 prefix) does not change the aggregate. -/
theorem c5_amended_witness :
    aggregateSignatures c5m [c5p1, c5p2] [] [] "s" 0 =
      aggregateSignatures c5m [c5p1] [] [] "s" 0 :=
  c5_amended ⟨1, 2, 256⟩ c5m (by decide) [c5p1, c5p2] [c5p1] (by decide)
    (by decide) (by decide) [] [] "s" 0

/-! ## Claim C3 — aggregated signatures and the combined public key

In the shipped scheme each validator signs under an INDEPENDENT key,
`aggregate_signatures` returns the first partial's bytes, and
`compute_combined_public_key` returns the first public share of whatever
order the `HashMap` iteration produced.  A selection of partials whose first
signer is not the owner of that first public share therefore aggregates to a
signature that does NOT verify under the combined key. -/

/-- Manager with a `(2,2)` configuration for the C3 theorems. -/
def c3m : SimpleThresholdManager := ⟨⟨2, 2, 256⟩, .Ecdsa⟩

/-- Validator `"A"`'s key share as generated from the scalar 1. -/
def c3ksA : KeyShare :=
  ⟨"A", bytes32BE 1, k256PubkeyBytes (bytes32BE 1), [], ⟨2, 2, 256⟩⟩

/-- Validator `"B"`'s key share as generated from the scalar 2. -/
def c3ksB : KeyShare :=
  ⟨"B", bytes32BE 2, k256PubkeyBytes (bytes32BE 2), [], ⟨2, 2, 256⟩⟩

/-- The message being attested. -/
def c3msg : List Nat := [7]

/-- `"A"`'s partial signature over `c3msg` in session `"sid"`. -/
def c3pA : PartialSignature :=
  ⟨"A", k256Sign (bytes32BE 1) (hashWithDomain "sid" c3msg), none, 0⟩

/-- `"B"`'s partial signature over `c3msg` in session `"sid"`. -/
def c3pB : PartialSignature :=
  ⟨"B", k256Sign (bytes32BE 2) (hashWithDomain "sid" c3msg), none, 0⟩

/-- The public key shares as extracted in the order `A`, `B`. -/
def c3pubs : List PublicKeyShare :=
  [⟨"A", k256PubkeyBytes (bytes32BE 1), k256PubkeyBytes (bytes32BE 1)⟩,
   ⟨"B", k256PubkeyBytes (bytes32BE 2), k256PubkeyBytes (bytes32BE 2)⟩]

/-- The aggregate the code produces from the selection `[B's, A's]`. -/
def c3agg : AggregatedSignature :=
  ⟨k256Sign (bytes32BE 2) (hashWithDomain "sid" c3msg), ["B", "A"], [],
    "ecdsa-simple", 0⟩

/-- C3, counterexample: both partials are honestly created from the generated
    key shares and the selection `[B's, A's]` meets the threshold 2, but the
    aggregate — the first selected partial's bytes, B's — does not verify
    under the combined public key, which is A's (the first public share):
    `verify_signature` answers `Ok(false)` where the claim requires
    `Ok(true)`. -/
theorem c3_counterexample :
    generateKeyShares c3m ["A", "B"] [bytes32BE 1, bytes32BE 2] =
      .ok [("A", c3ksA), ("B", c3ksB)] ∧
    extractPublicKeyShares [("A", c3ksA), ("B", c3ksB)] = .ok c3pubs ∧
    createPartialSignature c3m c3ksA c3msg "sid" 0 = .ok c3pA ∧
    createPartialSignature c3m c3ksB c3msg "sid" 0 = .ok c3pB ∧
    computeCombinedPublicKey c3pubs = .ok (k256PubkeyBytes (bytes32BE 1)) ∧
    c3m.config.threshold ≤ [c3pB, c3pA].length ∧
    aggregateSignatures c3m [c3pB, c3pA] c3pubs c3msg "sid" 0 = .ok c3agg ∧
    verifySignature c3m c3agg c3msg (k256PubkeyBytes (bytes32BE 1)) "sid" =
      .ok false := by
  refine ⟨rfl, rfl, ?_, ?_, rfl, by decide, rfl, ?_⟩ <;> decide

/-- C3, amended: the produced aggregate does verify in the aligned case —
    when the first partial of the selection was created (by
    `create_partial_signature`) from a 32-byte key share whose public key is
    the FIRST entry of the public-share list from which the combined key is
    computed, then `aggregate_signatures` succeeds and `verify_signature`
    returns `Ok(true)` on the result under the combined key. -/
theorem c3_amended (m : SimpleThresholdManager) (ks : KeyShare)
    (p0 : PartialSignature) (rest : List PartialSignature)
    (pubs : List PublicKeyShare) (ps0 : PublicKeyShare) (msg : List Nat)
    (sid : String) (t t' : Nat)
    (hlen : ks.private_share.length = 32)
    (hpart : createPartialSignature m ks msg sid t = .ok p0)
    (hps : pubs.head? = some ps0)
    (hpub : ps0.public_share = k256PubkeyBytes ks.private_share)
    (hk : m.config.threshold ≤ (p0 :: rest).length) :
    ∃ agg pk, computeCombinedPublicKey pubs = .ok pk ∧
      aggregateSignatures m (p0 :: rest) pubs msg sid t' = .ok agg ∧
      verifySignature m agg msg pk sid = .ok true := by
  have hsk : k256SkValid ks.private_share = true := by
    unfold createPartialSignature at hpart
    rw [if_pos hlen] at hpart
    by_cases h : k256SkValid ks.private_share
    · exact h
    · rw [if_neg (by simpa using h)] at hpart
      cases hpart
  have hp0 : p0 = ⟨ks.validator_id,
      k256Sign ks.private_share (hashWithDomain sid msg), none, t⟩ := by
    unfold createPartialSignature at hpart
    rw [if_pos hlen, if_pos hsk] at hpart
    cases hpart
    rfl
  obtain ⟨q, qs, hqs⟩ : ∃ q qs, pubs = q :: qs := by
    cases pubs with
    | nil => cases hps
    | cons q qs => exact ⟨q, qs, rfl⟩
  have hq : q = ps0 := by
    rw [hqs] at hps
    simpa using hps
  have hlt : ¬ (p0 :: rest).length < m.config.threshold := not_lt.mpr hk
  refine ⟨⟨p0.signature,
      ((p0 :: rest).take m.config.threshold).map (fun s => s.validator_id),
      [], "ecdsa-simple", t'⟩,
    k256PubkeyBytes ks.private_share, ?_, ?_, ?_⟩
  · rw [hqs]
    show Except.ok q.public_share = _
    rw [hq, hpub]
  · unfold aggregateSignatures
    rw [if_neg hlt]
  · have hsig : p0.signature =
        k256Sign ks.private_share (hashWithDomain sid msg) := by
      rw [hp0]
    unfold verifySignature
    rw [if_neg (by simp [hsig, k256Sign_length ks.private_share _ hlen])]
    rw [if_neg (by simp [hsig, k256SigValid_sign ks.private_share _ hlen hsk])]
    rw [if_neg (by simp [k256PubValid_pubkey ks.private_share hlen])]
    rw [hsig, k256_verify_sign ks.private_share _ hlen]

/-- C3, witness for the amended theorem: the aligned concrete instance —
    `A`'s partial first and `A`'s public share first — verifies. -/
theorem c3_amended_witness :
    ∃ agg pk, computeCombinedPublicKey c3pubs = .ok pk ∧
      aggregateSignatures c3m [c3pA, c3pB] c3pubs c3msg "sid" 0 = .ok agg ∧
      verifySignature c3m agg c3msg pk "sid" = .ok true :=
  c3_amended c3m c3ksA c3pA [c3pB] c3pubs
    ⟨"A", k256PubkeyBytes (bytes32BE 1), k256PubkeyBytes (bytes32BE 1)⟩
    c3msg "sid" 0 0 (by decide) (by decide) (by decide) (by decide)
    (by decide)

end Bridge
